import Mathlib

/-!
Verification development for a browser-based multi-track audio editor
(one React component over Tone.js and wavesurfer.js, `src/App.tsx`).

The component keeps an ordered list of tracks in React state and, in its
event handlers, separately pokes live audio-node objects (`player`,
`panner`, `pitchShift`).  We embed:

* the track registry as a `List Track` (the React `tracks` state);
* the live audio-node parameters as an association list keyed by track
  id (mutating `track.player.mute` etc. mutates a shared object that
  survives registry snapshots, so it is modelled as a separate store);
* the console as a `log : List String` (the source never calls
  `console.warn`/`console.error`, so no handler appends to it);
* each event handler (`handleMute`, `handleSolo`, `handleVolumeChange`,
  `handlePanChange`, `handlePitchChange`, `handleFileUpload`,
  `togglePlayPause`) as a function on this state, translated clause by
  clause from the source;
* the wavesurfer-binding `useEffect` as `ensureViews`;
* the external `Tone.Transport` clock, which is not part of this
  repository, as a small state machine modelled from the spec.

Numeric control values (volume dB, pan, pitch semitones) are JS numbers
used only for storage and comparison here, embedded as `Rat`.
-/

set_option autoImplicit false

namespace AudioApp

/-- Track identifier.  The source builds the id string
`track-${Date.now()}-${i}` from the current timestamp and the loop index
`i` of the file inside one upload batch; since the decimal renderings of
the two numbers are separated by a hyphen and contain none themselves,
two id strings are equal iff both components are equal, so we embed the
id as the pair of components. -/
structure TrackId where
  time : Nat
  idx : Nat
  deriving DecidableEq, Repr

/-- One entry of the track registry (the `Track` interface of the source,
restricted to the control fields; `audioBuffer` and `blob` are opaque
payloads never inspected by the handlers, and the `player`/`panner`/
`pitchShift` references are modelled by the separate node store). -/
structure Track where
  id : TrackId
  name : String
  muted : Bool
  solo : Bool
  volume : Rat
  pan : Rat
  pitch : Rat
  deriving DecidableEq, Repr

/-- The live audio-node parameters owned by one track: `player.mute`,
`player.volume.value`, `panner.pan.value`, `pitchShift.pitch`. -/
structure NodeState where
  playerMute : Bool
  playerVolume : Rat
  pannerPan : Rat
  pitchShiftPitch : Rat
  deriving DecidableEq, Repr

/-- Whole component state: the React `tracks` state, the live node
objects keyed by track id, and the console log. -/
structure AppState where
  tracks : List Track
  nodes : List (TrackId × NodeState)
  log : List String
  deriving DecidableEq, Repr

/-- Look up a track by id, as `tracks.find(t => t.id === trackId)`. -/
def trackById (ts : List Track) (tid : TrackId) : Option Track :=
  ts.find? fun t => decide (t.id = tid)

/-- Look up the node parameters of a track id. -/
def nodeById (ns : List (TrackId × NodeState)) (tid : TrackId) : Option NodeState :=
  (ns.find? fun p => decide (p.1 = tid)).map (·.2)

/-- Mutate the node object belonging to `tid` in place. -/
def setNode (ns : List (TrackId × NodeState)) (tid : TrackId)
    (f : NodeState → NodeState) : List (TrackId × NodeState) :=
  ns.map fun p => if p.1 = tid then (p.1, f p.2) else p

/-- `handleMute` from the source: flips `muted` of the matching registry
entry, then — reading the pre-update `tracks` closure — sets
`track.player.mute = !track.muted` on the found track's player. -/
def handleMute (s : AppState) (tid : TrackId) : AppState :=
  let tracks' := s.tracks.map fun t =>
    if t.id = tid then { t with muted := !t.muted } else t
  let nodes' :=
    match s.tracks.find? (fun t => decide (t.id = tid)) with
    | some t => setNode s.nodes tid fun n => { n with playerMute := !t.muted }
    | none => s.nodes
  { s with tracks := tracks', nodes := nodes' }

/-- `handleSolo` from the source: flips `solo` of the matching entry,
then recomputes every track's `muted` field as
`hasSoloTrack ? !track.solo : track.muted`.  No audio node is touched. -/
def handleSolo (s : AppState) (tid : TrackId) : AppState :=
  let updatedTracks := s.tracks.map fun t =>
    if t.id = tid then { t with solo := !t.solo } else t
  let hasSoloTrack := updatedTracks.any fun t => t.solo
  { s with tracks := updatedTracks.map fun t =>
      { t with muted := if hasSoloTrack then !t.solo else t.muted } }

/-- `handleVolumeChange` from the source: stores the argument verbatim in
the registry and sets `track.player.volume.value = volume` when the id is
found. -/
def handleVolumeChange (s : AppState) (tid : TrackId) (volume : Rat) : AppState :=
  let tracks' := s.tracks.map fun t =>
    if t.id = tid then { t with volume := volume } else t
  let nodes' :=
    match s.tracks.find? (fun t => decide (t.id = tid)) with
    | some _ => setNode s.nodes tid fun n => { n with playerVolume := volume }
    | none => s.nodes
  { s with tracks := tracks', nodes := nodes' }

/-- `handlePanChange` from the source: stores the argument verbatim and
sets `track.panner.pan.value = pan` when the id is found. -/
def handlePanChange (s : AppState) (tid : TrackId) (pan : Rat) : AppState :=
  let tracks' := s.tracks.map fun t =>
    if t.id = tid then { t with pan := pan } else t
  let nodes' :=
    match s.tracks.find? (fun t => decide (t.id = tid)) with
    | some _ => setNode s.nodes tid fun n => { n with pannerPan := pan }
    | none => s.nodes
  { s with tracks := tracks', nodes := nodes' }

/-- `handlePitchChange` from the source: stores the argument verbatim and
sets `track.pitchShift.pitch = pitch` when the id is found. -/
def handlePitchChange (s : AppState) (tid : TrackId) (pitch : Rat) : AppState :=
  let tracks' := s.tracks.map fun t =>
    if t.id = tid then { t with pitch := pitch } else t
  let nodes' :=
    match s.tracks.find? (fun t => decide (t.id = tid)) with
    | some _ => setNode s.nodes tid fun n => { n with pitchShiftPitch := pitch }
    | none => s.nodes
  { s with tracks := tracks', nodes := nodes' }

/-- One file of an upload batch.  Decoding is performed by the external
`Tone.context.decodeAudioData`; the model records, per file, whether that
external decode succeeds (`audioOk`).  The raw bytes and decoded buffer
are opaque payloads never inspected by the handlers. -/
structure UploadFile where
  name : String
  audioOk : Bool
  deriving DecidableEq, Repr

/-- The rejection produced by a failing `decodeAudioData` call, carrying
the filename it was invoked on. -/
structure DecodeError where
  filename : String
  deriving DecidableEq, Repr

/-- The fresh registry entry built in `handleFileUpload`:
id `track-${now}-${i}`, all control fields at their defaults. -/
def newTrack (now i : Nat) (f : UploadFile) : Track :=
  { id := ⟨now, i⟩, name := f.name, muted := false, solo := false
    volume := 0, pan := 0, pitch := 0 }

/-- Initial node parameters of a fresh track: `new Tone.Player`
(unmuted, 0 dB), `new Tone.Panner(0)`, `new Tone.PitchShift(0)`. -/
def newNode : NodeState :=
  { playerMute := false, playerVolume := 0, pannerPan := 0, pitchShiftPitch := 0 }

/-- Appends the fresh track and its node chain, as the loop body of
`handleFileUpload` does via `setTracks(prev => [...prev, newTrack])`. -/
def addTrack (s : AppState) (now i : Nat) (f : UploadFile) : AppState :=
  { s with tracks := s.tracks ++ [newTrack now i f]
           nodes := s.nodes ++ [(⟨now, i⟩, newNode)] }

/-- The `for` loop of `handleFileUpload`, with `i` the loop index.  The
source has no `try`/`catch` around `await decodeAudioData`, so a decode
rejection aborts the whole async function: files already processed stay
added, the failing file and the remaining ones are not processed, and
the rejection (modelled as the returned `DecodeError`) escapes. -/
def ingestLoop (s : AppState) (now : Nat) : List UploadFile → Nat →
    AppState × Option DecodeError
  | [], _ => (s, none)
  | f :: rest, i =>
    if f.audioOk then ingestLoop (addTrack s now i f) now rest (i + 1)
    else (s, some ⟨f.name⟩)

/-- `handleFileUpload` from the source, applied to the file list of one
upload action; `now` is the `Date.now()` timestamp observed during that
action (all ids of one batch share it). -/
def handleFileUpload (s : AppState) (now : Nat) (files : List UploadFile) :
    AppState × Option DecodeError :=
  ingestLoop s now files 0

/-- State of the waveform-view binder: the ids holding a live wavesurfer
instance (`wavesurferRefs.current`), plus a log of every
`WaveSurfer.create` + `loadBlob` event in order, to make creations
observable. -/
structure ViewState where
  views : List TrackId
  creations : List TrackId
  deriving DecidableEq, Repr

/-- Body of the wavesurfer `useEffect` for one track: if no view exists
for the id, create one and load the blob; otherwise do nothing. -/
def ensureView (vs : ViewState) (t : Track) : ViewState :=
  if t.id ∈ vs.views then vs
  else { views := vs.views ++ [t.id], creations := vs.creations ++ [t.id] }

/-- One run of the wavesurfer `useEffect`: `tracks.forEach` over the
current registry, in order. -/
def ensureViews (vs : ViewState) (ts : List Track) : ViewState :=
  ts.foldl ensureView vs

/-- Modelled from the spec: the external playback engine's global
Transport object is not code of this repository; section 4.4 and the
collaborator contract of section 6 describe it as a shared clock with
`start`, `pause` and a readable elapsed-seconds value that advances
while playing and is frozen while paused. -/
structure Transport where
  playing : Bool
  seconds : Rat
  deriving DecidableEq, Repr

/-- Modelled from the spec: `Transport.start()` resumes the clock from
its current position (section 4.4, Paused to Playing resumes). -/
def transportStart (tr : Transport) : Transport :=
  { tr with playing := true }

/-- Modelled from the spec: `Transport.pause()` freezes the clock at its
current position. -/
def transportPause (tr : Transport) : Transport :=
  { tr with playing := false }

/-- Modelled from the spec: the passage of `dt` seconds of wall time
advances the clock only while it is playing. -/
def transportTick (tr : Transport) (dt : Rat) : Transport :=
  if tr.playing then { tr with seconds := tr.seconds + dt } else tr

/-- `togglePlayPause` from the source, restricted to its effect on the
`isPlaying` flag and the Transport clock (the `player.start()` calls it
also issues do not touch the clock). -/
def togglePlayPause (isPlaying : Bool) (tr : Transport) : Bool × Transport :=
  if isPlaying then (false, transportPause tr) else (true, transportStart tr)

/-- An observable step of the transport environment: either wall time
passes (and the ~100 ms poll reads the clock), or the user presses the
play/pause button. -/
inductive TransportEvent where
  | tick (dt : Rat)
  | toggle
  deriving Repr

/-- Step function of the play/pause + clock state machine. -/
def transportStep : Bool × Transport → TransportEvent → Bool × Transport
  | (b, tr), .tick dt => (b, transportTick tr dt)
  | (b, tr), .toggle => togglePlayPause b tr

/-- A trace is well-formed when wall time never flows backwards. -/
def nonnegEvent : TransportEvent → Bool
  | .tick dt => decide (0 ≤ dt)
  | .toggle => true

/-- Run a trace of transport events. -/
def transportRun (st : Bool × Transport) (evs : List TransportEvent) :
    Bool × Transport :=
  evs.foldl transportStep st

/-! Concrete states, built only through the handlers above, used as
inputs of the concrete theorems below. -/

/-- The initial component state: no tracks, no nodes, empty console. -/
def emptyState : AppState := { tracks := [], nodes := [], log := [] }

/-- Id of the first track of a two-file batch uploaded at timestamp 1. -/
def idA : TrackId := ⟨1, 0⟩

/-- Id of the second track of that batch. -/
def idB : TrackId := ⟨1, 1⟩

/-- A track id that is never assigned in the states below. -/
def bogusId : TrackId := ⟨9, 9⟩

/-- Two tracks `a`, `b` freshly uploaded in one batch at timestamp 1. -/
def sAB : AppState := (handleFileUpload emptyState 1 [⟨"a", true⟩, ⟨"b", true⟩]).1

/-- `sAB` after the user mutes track `a`. -/
def sAmuted : AppState := handleMute sAB idA

/-- `sAB` after the user solos track `a` and then mutes it: track `a`
ends with `solo = true` and `muted = true`. -/
def sSoloMuted : AppState := handleMute (handleSolo sAB idA) idA

/-! Helper lemmas shared by the claim theorems. -/

/-- Looking up `tid` after the registry map touches only the entry with
id `tid` (and does not change ids) finds the image of the old entry. -/
theorem find?_map_update (ts : List Track) (tid : TrackId) (f : Track → Track)
    (hf : ∀ t, (f t).id = t.id) :
    ((ts.map fun t => if t.id = tid then f t else t).find?
        fun t => decide (t.id = tid))
      = (ts.find? fun t => decide (t.id = tid)).map f := by
  induction ts with
  | nil => rfl
  | cons a ts ih =>
    by_cases h : a.id = tid
    · rw [List.map_cons, if_pos h,
        List.find?_cons_of_pos _ (by simp [hf, h]),
        List.find?_cons_of_pos _ (by simp [h]), Option.map_some']
    · rw [List.map_cons, if_neg h,
        List.find?_cons_of_neg _ (by simp [h]),
        List.find?_cons_of_neg _ (by simp [h]), ih]

/-- `setNode` updates the parameters found under the target id. -/
theorem nodeById_setNode (ns : List (TrackId × NodeState)) (tid : TrackId)
    (f : NodeState → NodeState) :
    nodeById (setNode ns tid f) tid = (nodeById ns tid).map f := by
  induction ns with
  | nil => rfl
  | cons p ns ih =>
    by_cases h : p.1 = tid
    · simp only [setNode, nodeById, List.map_cons, if_pos h] at *
      rw [List.find?_cons_of_pos _ (by simp [h]),
        List.find?_cons_of_pos _ (by simp [h])]
      rfl
    · simp only [setNode, nodeById, List.map_cons, if_neg h] at *
      rw [List.find?_cons_of_neg _ (by simp [h]),
        List.find?_cons_of_neg _ (by simp [h])]
      exact ih

/-- A registry map targeting an id held by no entry is the identity. -/
theorem map_update_eq_self (ts : List Track) (tid : TrackId) (f : Track → Track)
    (h : ∀ t ∈ ts, t.id ≠ tid) :
    (ts.map fun t => if t.id = tid then f t else t) = ts := by
  induction ts with
  | nil => rfl
  | cons a ts ih =>
    rw [List.map_cons, if_neg (h a (List.mem_cons_self a ts)),
      ih fun t ht => h t (List.mem_cons_of_mem a ht)]

/-- Rewriting every `muted` field does not change which tracks are
soloed. -/
theorem any_solo_map_muted (ts : List Track) (m : Track → Bool) :
    ((ts.map fun t => { t with muted := m t }).any fun t => t.solo)
      = ts.any fun t => t.solo := by
  induction ts with
  | nil => rfl
  | cons a ts ih => simp [List.any_cons, ih]

/-- The `muted` fields after rewriting every `muted` field. -/
theorem map_muted_map_muted (ts : List Track) (m : Track → Bool) :
    ((ts.map fun t => { t with muted := m t }).map fun t => t.muted)
      = ts.map m := by
  induction ts with
  | nil => rfl
  | cons a ts ih => simp [ih]

/-- Toggling a `solo` flag leaves every `muted` field unchanged. -/
theorem map_muted_solo_update (ts : List Track) (tid : TrackId) :
    ((ts.map fun t => if t.id = tid then { t with solo := !t.solo } else t).map
        fun t => t.muted)
      = ts.map fun t => t.muted := by
  induction ts with
  | nil => rfl
  | cons a ts ih =>
    by_cases h : a.id = tid <;> simp [h, ih]

/-! Claim C1: solo save/restore round-trip. -/

/-- C1 counterexample: the claim says that once the set of soloed tracks
returns to empty, every track's `muted` flag equals its value before the
first solo was engaged.  Concretely: in `sAmuted` (tracks `a`, `b` with
`muted = [true, false]`, no solo), soloing `a` and then un-soloing `a`
leaves no track soloed but `muted = [false, true]` — track `a` lost its
mute and track `b` gained one, so nothing was restored. -/
theorem solo_roundtrip_not_restored_cex :
    ((handleSolo (handleSolo sAmuted idA) idA).tracks.map fun t => t.solo)
        = [false, false] ∧
    sAmuted.tracks.map (fun t => t.muted) = [true, false] ∧
    ((handleSolo (handleSolo sAmuted idA) idA).tracks.map fun t => t.muted)
        = [false, true] := by
  refine ⟨by decide, by decide, by decide⟩

/-- C1 amended: when a `handleSolo` call leaves the solo set empty, every
track's `muted` flag keeps the value it had immediately before that call
(the values forced during the solo episode persist); pre-solo mute state
is not restored, because the source keeps no saved copy of it. -/
theorem solo_off_keeps_current_muted (s : AppState) (tid : TrackId)
    (h : ((handleSolo s tid).tracks.any fun t => t.solo) = false) :
    (handleSolo s tid).tracks.map (fun t => t.muted)
      = s.tracks.map fun t => t.muted := by
  simp only [handleSolo] at h ⊢
  rw [any_solo_map_muted] at h
  rw [map_muted_map_muted]
  simp only [h, Bool.false_eq_true, if_false]
  exact map_muted_solo_update s.tracks tid

/-- C1 witness: toggling solo on an id absent from `sAB` leaves the solo
set empty, and indeed every `muted` flag is carried over. -/
theorem solo_off_keeps_current_muted_witness :
    (((handleSolo sAB bogusId).tracks.any fun t => t.solo) = false) ∧
    (handleSolo sAB bogusId).tracks.map (fun t => t.muted)
      = sAB.tracks.map fun t => t.muted :=
  ⟨by decide, solo_off_keeps_current_muted sAB bogusId (by decide)⟩

/-! Claim C2: audibility pattern while some track is soloed. -/

/-- C2 counterexample: the claim says a `solo == true` track keeps the
effective mute given by its own user-set `muted` value rather than being
forced unmuted.  In `sAmuted`, track `a` has the user-set `muted = true`;
after soloing `a` some track is soloed, yet `a`'s `muted` field — the
only mute state the source keeps and applies — has been forced to
`false`. -/
theorem soloed_track_forced_unmuted_cex :
    (((handleSolo sAmuted idA).tracks.any fun t => t.solo) = true) ∧
    (trackById sAmuted.tracks idA).map (fun t => t.muted) = some true ∧
    ((trackById (handleSolo sAmuted idA).tracks idA).map fun t => t.muted)
        = some false := by
  refine ⟨by decide, by decide, by decide⟩

/-- C2 amended: after a `handleSolo` call that leaves at least one track
soloed, every track satisfies `muted = !solo`: non-soloed tracks are
muted, and soloed tracks are forced unmuted regardless of the mute state
the user had set. -/
theorem solo_engaged_mute_pattern (s : AppState) (tid : TrackId)
    (h : ((handleSolo s tid).tracks.any fun t => t.solo) = true) :
    ∀ t ∈ (handleSolo s tid).tracks, t.muted = !t.solo := by
  simp only [handleSolo] at h ⊢
  rw [any_solo_map_muted] at h
  intro t ht
  rcases List.mem_map.mp ht with ⟨t0, _, rfl⟩
  simp [h]

/-- C2 witness: soloing track `a` of `sAmuted` leaves a soloed track, and
the resulting flags are `muted = !solo` on both tracks. -/
theorem solo_engaged_mute_pattern_witness :
    (((handleSolo sAmuted idA).tracks.any fun t => t.solo) = true) ∧
    ∀ t ∈ (handleSolo sAmuted idA).tracks, t.muted = !t.solo :=
  ⟨by decide, solo_engaged_mute_pattern sAmuted idA (by decide)⟩

/-! Claim C3: node parameters mirror the registry after every mutation. -/

/-- C3 counterexample: the claim says a mute change induced by toggling
solo is pushed onto each affected track's player node.  Soloing `a` in
`sAB` forces track `b`'s registry `muted` to `true`, yet `b`'s live
`player.mute` is still `false`: `handleSolo` touches no audio node. -/
theorem solo_mute_not_pushed_to_player_cex :
    ((trackById (handleSolo sAB idA).tracks idB).map fun t => t.muted)
        = some true ∧
    ((nodeById (handleSolo sAB idA).nodes idB).map fun n => n.playerMute)
        = some false := by
  refine ⟨by decide, by decide⟩

/-- Shape shared by the four direct handlers: the registry map hits the
entry with the target id, and the node store is updated exactly when the
pre-update registry lookup succeeds. -/
theorem setter_shape_sync (ts : List Track) (ns : List (TrackId × NodeState))
    (tid : TrackId) (g : Track → Track) (hg : ∀ u, (g u).id = u.id)
    (F : Track → NodeState → NodeState) (t : Track) (n : NodeState)
    (hT : ts.find? (fun u => decide (u.id = tid)) = some t)
    (hN : nodeById ns tid = some n) :
    ((ts.map fun u => if u.id = tid then g u else u).find?
        (fun u => decide (u.id = tid)) = some (g t)) ∧
    (nodeById
        (match ts.find? (fun u => decide (u.id = tid)) with
          | some u => setNode ns tid (F u)
          | none => ns) tid = some (F t n)) := by
  constructor
  · rw [find?_map_update ts tid g hg, hT]
    rfl
  · rw [hT]
    show nodeById (setNode ns tid (F t)) tid = some (F t n)
    rw [nodeById_setNode, hN]
    rfl

/-- C3 amended: each of the four direct handlers pushes its new stored
value onto the corresponding node parameter of the target track (volume
onto `player.volume.value`, pan onto `panner.pan.value`, pitch onto
`pitchShift.pitch`, toggled mute onto `player.mute`), but `handleSolo`
leaves the node store untouched, so solo-induced mute changes are never
pushed to any player. -/
theorem setters_sync_nodes (s : AppState) (tid : TrackId) (t : Track)
    (n : NodeState) (v p q : Rat)
    (hT : trackById s.tracks tid = some t)
    (hN : nodeById s.nodes tid = some n) :
    (trackById (handleVolumeChange s tid v).tracks tid
        = some { t with volume := v } ∧
      nodeById (handleVolumeChange s tid v).nodes tid
        = some { n with playerVolume := v }) ∧
    (trackById (handlePanChange s tid p).tracks tid
        = some { t with pan := p } ∧
      nodeById (handlePanChange s tid p).nodes tid
        = some { n with pannerPan := p }) ∧
    (trackById (handlePitchChange s tid q).tracks tid
        = some { t with pitch := q } ∧
      nodeById (handlePitchChange s tid q).nodes tid
        = some { n with pitchShiftPitch := q }) ∧
    (trackById (handleMute s tid).tracks tid
        = some { t with muted := !t.muted } ∧
      nodeById (handleMute s tid).nodes tid
        = some { n with playerMute := !t.muted }) ∧
    (handleSolo s tid).nodes = s.nodes := by
  refine ⟨?_, ?_, ?_, ?_, rfl⟩
  · exact setter_shape_sync s.tracks s.nodes tid
      (fun u => { u with volume := v }) (fun u => rfl)
      (fun _ m => { m with playerVolume := v }) t n hT hN
  · exact setter_shape_sync s.tracks s.nodes tid
      (fun u => { u with pan := p }) (fun u => rfl)
      (fun _ m => { m with pannerPan := p }) t n hT hN
  · exact setter_shape_sync s.tracks s.nodes tid
      (fun u => { u with pitch := q }) (fun u => rfl)
      (fun _ m => { m with pitchShiftPitch := q }) t n hT hN
  · exact setter_shape_sync s.tracks s.nodes tid
      (fun u => { u with muted := !u.muted }) (fun u => rfl)
      (fun u m => { m with playerMute := !u.muted }) t n hT hN

/-- C3 witness: on `sAB`, each setter applied to track `a` leaves the
stored value and the live node parameter equal, and `handleSolo`
preserves the node store. -/
theorem setters_sync_nodes_witness :
    (trackById (handleVolumeChange sAB idA 3).tracks idA
        = some { id := idA, name := "a", muted := false, solo := false,
                 volume := 3, pan := 0, pitch := 0 } ∧
      nodeById (handleVolumeChange sAB idA 3).nodes idA
        = some { playerMute := false, playerVolume := 3, pannerPan := 0,
                 pitchShiftPitch := 0 }) ∧
    (trackById (handlePanChange sAB idA 3).tracks idA
        = some { id := idA, name := "a", muted := false, solo := false,
                 volume := 0, pan := 3, pitch := 0 } ∧
      nodeById (handlePanChange sAB idA 3).nodes idA
        = some { playerMute := false, playerVolume := 0, pannerPan := 3,
                 pitchShiftPitch := 0 }) ∧
    (trackById (handlePitchChange sAB idA 3).tracks idA
        = some { id := idA, name := "a", muted := false, solo := false,
                 volume := 0, pan := 0, pitch := 3 } ∧
      nodeById (handlePitchChange sAB idA 3).nodes idA
        = some { playerMute := false, playerVolume := 0, pannerPan := 0,
                 pitchShiftPitch := 3 }) ∧
    (trackById (handleMute sAB idA).tracks idA
        = some { id := idA, name := "a", muted := true, solo := false,
                 volume := 0, pan := 0, pitch := 0 } ∧
      nodeById (handleMute sAB idA).nodes idA
        = some { playerMute := true, playerVolume := 0, pannerPan := 0,
                 pitchShiftPitch := 0 }) ∧
    (handleSolo sAB idA).nodes = sAB.nodes :=
  setters_sync_nodes sAB idA
    { id := idA, name := "a", muted := false, solo := false,
      volume := 0, pan := 0, pitch := 0 }
    { playerMute := false, playerVolume := 0, pannerPan := 0,
      pitchShiftPitch := 0 }
    3 3 3 (by decide) (by decide)

/-! Claim C4: setters clamp to the documented ranges. -/

/-- C4 counterexample: the claim says `setVolume(id, 10)` stores `0` and
`setPan(id, -5)` stores `-1`.  On `sAB`, `handleVolumeChange` with `10`
stores `10` (not `0`), and `handlePanChange` with `-5` stores `-5`
(not `-1`): the handlers perform no clamping — the documented ranges are
enforced only by the HTML slider attributes. -/
theorem setters_do_not_clamp_cex :
    ((trackById (handleVolumeChange sAB idA 10).tracks idA).map
        fun t => t.volume) = some 10 ∧
    ¬ ((trackById (handleVolumeChange sAB idA 10).tracks idA).map
        fun t => t.volume) = some 0 ∧
    ((trackById (handlePanChange sAB idA (-5)).tracks idA).map
        fun t => t.pan) = some (-5) ∧
    ¬ ((trackById (handlePanChange sAB idA (-5)).tracks idA).map
        fun t => t.pan) = some (-1) := by
  refine ⟨by decide, by decide, by decide, by decide⟩

/-- C4 amended: the volume, pan, and pitch setters store their numeric
argument verbatim for the target track, with no clamping to
`[-60, 0]`, `[-1, 1]`, or `[-12, 12]`; out-of-range inputs are stored
out of range. -/
theorem setters_store_unclamped (s : AppState) (tid : TrackId) (t : Track)
    (v p q : Rat) (hT : trackById s.tracks tid = some t) :
    ((trackById (handleVolumeChange s tid v).tracks tid).map
        fun u => u.volume) = some v ∧
    ((trackById (handlePanChange s tid p).tracks tid).map
        fun u => u.pan) = some p ∧
    ((trackById (handlePitchChange s tid q).tracks tid).map
        fun u => u.pitch) = some q := by
  have hT' : List.find? (fun u => decide (u.id = tid)) s.tracks = some t := hT
  refine ⟨?_, ?_, ?_⟩
  · show ((s.tracks.map fun u => if u.id = tid then { u with volume := v }
        else u).find? (fun u => decide (u.id = tid))).map (fun u => u.volume)
        = some v
    rw [find?_map_update s.tracks tid (fun u => { u with volume := v })
      (fun u => rfl), hT']
    rfl
  · show ((s.tracks.map fun u => if u.id = tid then { u with pan := p }
        else u).find? (fun u => decide (u.id = tid))).map (fun u => u.pan)
        = some p
    rw [find?_map_update s.tracks tid (fun u => { u with pan := p })
      (fun u => rfl), hT']
    rfl
  · show ((s.tracks.map fun u => if u.id = tid then { u with pitch := q }
        else u).find? (fun u => decide (u.id = tid))).map (fun u => u.pitch)
        = some q
    rw [find?_map_update s.tracks tid (fun u => { u with pitch := q })
      (fun u => rfl), hT']
    rfl

/-- C4 witness: out-of-range inputs `10`, `-5`, `40` are stored verbatim
for track `a` of `sAB`. -/
theorem setters_store_unclamped_witness :
    ((trackById (handleVolumeChange sAB idA 10).tracks idA).map
        fun u => u.volume) = some 10 ∧
    ((trackById (handlePanChange sAB idA (-5)).tracks idA).map
        fun u => u.pan) = some (-5) ∧
    ((trackById (handlePitchChange sAB idA 40).tracks idA).map
        fun u => u.pitch) = some 40 :=
  setters_store_unclamped sAB idA
    { id := idA, name := "a", muted := false, solo := false,
      volume := 0, pan := 0, pitch := 0 }
    10 (-5) 40 (by decide)

/-! Claim C5: per-file independence of batch ingestion. -/

/-- Running the upload loop over files that all decode adds one track per
file, in file order. -/
theorem ingestLoop_all_ok (now : Nat) (gs : List UploadFile)
    (hg : ∀ f ∈ gs, f.audioOk = true) :
    ∀ (s : AppState) (i : Nat),
      (ingestLoop s now gs i).2 = none ∧
      (ingestLoop s now gs i).1.tracks.map (fun t => t.name)
        = s.tracks.map (fun t => t.name) ++ gs.map fun f => f.name := by
  induction gs with
  | nil => intro s i; exact ⟨rfl, by simp [ingestLoop]⟩
  | cons g gs ih =>
    intro s i
    have hgOk : g.audioOk = true := hg g (List.mem_cons_self g gs)
    have htail : ∀ f ∈ gs, f.audioOk = true :=
      fun f hf => hg f (List.mem_cons_of_mem g hf)
    rw [ingestLoop, if_pos hgOk]
    rcases ih htail (addTrack s now i g) (i + 1) with ⟨h1, h2⟩
    refine ⟨h1, ?_⟩
    rw [h2]
    simp [addTrack, newTrack]

/-- Hitting a file that fails to decode returns the state accumulated so
far together with the decode rejection; the remaining files are not
processed. -/
theorem ingestLoop_stops_at_failure (now : Nat) (gs : List UploadFile)
    (hg : ∀ f ∈ gs, f.audioOk = true) (b : UploadFile)
    (hb : b.audioOk = false) (rest : List UploadFile) :
    ∀ (s : AppState) (i : Nat),
      ingestLoop s now (gs ++ b :: rest) i
        = ((ingestLoop s now gs i).1, some ⟨b.name⟩) := by
  induction gs with
  | nil =>
    intro s i
    simp [ingestLoop, hb]
  | cons g gs ih =>
    intro s i
    have hgOk : g.audioOk = true := hg g (List.mem_cons_self g gs)
    have htail : ∀ f ∈ gs, f.audioOk = true :=
      fun f hf => hg f (List.mem_cons_of_mem g hf)
    simp only [List.cons_append]
    rw [ingestLoop, if_pos hgOk, ih htail, ingestLoop, if_pos hgOk]

/-- C5 counterexample: the claim says ingesting 3 files where the 2nd
fails to decode yields 2 tracks (the 1st and 3rd files) plus one decode
error.  The source's loop has no `try`/`catch`, so the rejection of the
2nd file aborts the async function: only the 1st file's track exists and
the 3rd file is never processed. -/
theorem batch_aborts_on_decode_failure_cex :
    ((handleFileUpload emptyState 7
        [⟨"a", true⟩, ⟨"b", false⟩, ⟨"c", true⟩]).1.tracks.map
      fun t => t.name) = ["a"] ∧
    ¬ ((handleFileUpload emptyState 7
        [⟨"a", true⟩, ⟨"b", false⟩, ⟨"c", true⟩]).1.tracks.map
      fun t => t.name) = ["a", "c"] ∧
    (handleFileUpload emptyState 7
        [⟨"a", true⟩, ⟨"b", false⟩, ⟨"c", true⟩]).2 = some ⟨"b"⟩ := by
  refine ⟨by decide, by decide, by decide⟩

/-- C5 amended: file ingestion is not independent — a decode failure
aborts the batch.  For any batch consisting of decodable files `gs`
followed by a failing file `b` and arbitrary further files, exactly the
tracks for `gs` are appended (in order), `b`'s rejection escapes as the
reported error, and the files after `b` are never ingested. -/
theorem upload_prefix_until_failure (s : AppState) (now : Nat)
    (gs : List UploadFile) (b : UploadFile) (rest : List UploadFile)
    (hg : ∀ f ∈ gs, f.audioOk = true) (hb : b.audioOk = false) :
    (handleFileUpload s now (gs ++ b :: rest)).2 = some ⟨b.name⟩ ∧
    (handleFileUpload s now (gs ++ b :: rest)).1.tracks.map (fun t => t.name)
      = s.tracks.map (fun t => t.name) ++ gs.map fun f => f.name := by
  rw [handleFileUpload, ingestLoop_stops_at_failure now gs hg b hb rest s 0]
  exact ⟨rfl, (ingestLoop_all_ok now gs hg s 0).2⟩

/-- C5 witness: the amended statement at the 3-file batch whose 2nd file
fails. -/
theorem upload_prefix_until_failure_witness :
    (handleFileUpload emptyState 7
        (([⟨"a", true⟩] : List UploadFile)
          ++ (⟨"b", false⟩ : UploadFile) :: [⟨"c", true⟩])).2
        = some ⟨"b"⟩ ∧
    (handleFileUpload emptyState 7
        (([⟨"a", true⟩] : List UploadFile)
          ++ (⟨"b", false⟩ : UploadFile) :: [⟨"c", true⟩])).1.tracks.map
        (fun t => t.name)
      = emptyState.tracks.map (fun t => t.name)
          ++ ([⟨"a", true⟩] : List UploadFile).map fun f => f.name :=
  upload_prefix_until_failure emptyState 7 [⟨"a", true⟩] ⟨"b", false⟩
    [⟨"c", true⟩] (by decide) (by decide)

/-! Claim C6: id uniqueness under simultaneous creation. -/

/-- The upload loop only appends tracks, every appended track carries the
batch timestamp and a loop index at least the starting index, and the
indices strictly increase along the appended tracks. -/
theorem ingestLoop_new_tracks (now : Nat) (fs : List UploadFile) :
    ∀ (s : AppState) (i : Nat),
      ∃ new, (ingestLoop s now fs i).1.tracks = s.tracks ++ new ∧
        (∀ t ∈ new, t.id.time = now ∧ i ≤ t.id.idx) ∧
        new.Pairwise fun a b => a.id.idx < b.id.idx := by
  induction fs with
  | nil =>
    intro s i
    exact ⟨[], by simp [ingestLoop], by simp, List.Pairwise.nil⟩
  | cons f fs ih =>
    intro s i
    by_cases hf : f.audioOk = true
    · rcases ih (addTrack s now i f) (i + 1) with ⟨new, h1, h2, h3⟩
      refine ⟨newTrack now i f :: new, ?_, ?_, ?_⟩
      · rw [ingestLoop, if_pos hf, h1]
        simp [addTrack]
      · intro t ht
        rcases List.mem_cons.mp ht with rfl | ht
        · exact ⟨rfl, Nat.le_refl i⟩
        · exact ⟨(h2 t ht).1, Nat.le_of_succ_le (h2 t ht).2⟩
      · refine List.Pairwise.cons ?_ h3
        intro b hb
        exact Nat.lt_of_succ_le (h2 b hb).2
    · refine ⟨[], ?_, by simp, List.Pairwise.nil⟩
      rw [ingestLoop, if_neg hf]
      simp

/-- C6 counterexample: the claim says ids stay distinct even for tracks
created in two separate upload actions within the same instant.  Two
single-file uploads both observing `Date.now() = 100` assign the id
`track-100-0` twice, because the disambiguating component is the loop
index inside one batch, which restarts at 0 for each upload action. -/
theorem same_instant_two_batches_collide_cex :
    ((handleFileUpload (handleFileUpload emptyState 100
          [⟨"a", true⟩]).1 100 [⟨"b", true⟩]).1.tracks.map fun t => t.id)
        = [⟨100, 0⟩, ⟨100, 0⟩] ∧
    ¬ (((handleFileUpload (handleFileUpload emptyState 100
          [⟨"a", true⟩]).1 100 [⟨"b", true⟩]).1.tracks.map
        fun t => t.id).Nodup) := by
  refine ⟨by decide, by decide⟩

/-- C6 amended: within a single upload action the assigned ids are
pairwise distinct even though all share one timestamp, because the loop
index disambiguates them; pre-existing tracks are untouched.  (Across two
upload actions sharing a timestamp the ids can collide, since each batch
restarts its index at 0.) -/
theorem ids_distinct_within_batch (s : AppState) (now : Nat)
    (files : List UploadFile) :
    (handleFileUpload s now files).1.tracks.take s.tracks.length
        = s.tracks ∧
    ((((handleFileUpload s now files).1.tracks.drop s.tracks.length).map
        fun t => t.id).Nodup) := by
  rcases ingestLoop_new_tracks now files s 0 with ⟨new, h1, _, h3⟩
  rw [handleFileUpload, h1, List.take_left, List.drop_left]
  refine ⟨rfl, ?_⟩
  have h4 : new.Pairwise fun a b => a.id ≠ b.id :=
    h3.imp fun hlt heq => Nat.ne_of_lt hlt (congrArg TrackId.idx heq)
  exact List.pairwise_map.mpr h4

/-! Claim C7: unknown-id operations. -/

/-- C7 counterexample: the claim says every update with an unknown id is
a no-op that emits a warning.  In `sSoloMuted` (track `a` soloed and then
re-muted by the user), `handleSolo` with the unknown id `bogusId` changes
the track list — the global recompute forces `a.muted` back to `false` —
and the console log stays empty: no warning is ever emitted (the source
contains no warning call at all). -/
theorem unknown_id_no_warning_cex :
    trackById sSoloMuted.tracks bogusId = none ∧
    ¬ (handleSolo sSoloMuted bogusId).tracks = sSoloMuted.tracks ∧
    (handleSolo sSoloMuted bogusId).log = [] ∧
    (handleVolumeChange sSoloMuted bogusId 3).log = [] := by
  refine ⟨by decide, by decide, by decide, by decide⟩

/-- C7 amended: with an id held by no track, `handleMute`,
`handleVolumeChange`, `handlePanChange` and `handlePitchChange` are
complete no-ops (state unchanged, no node touched, nothing crashes) but
emit no warning; `handleSolo` likewise touches no node and emits no
warning, but it still reruns the global mute recompute, which can change
`muted` flags. -/
theorem unknown_id_silent_noop (s : AppState) (tid : TrackId)
    (v p q : Rat) (h : ∀ t ∈ s.tracks, t.id ≠ tid) :
    handleMute s tid = s ∧
    handleVolumeChange s tid v = s ∧
    handlePanChange s tid p = s ∧
    handlePitchChange s tid q = s ∧
    (handleSolo s tid).nodes = s.nodes ∧
    (handleSolo s tid).log = s.log := by
  have hfind : s.tracks.find? (fun t => decide (t.id = tid)) = none :=
    List.find?_eq_none.mpr fun t ht => by simpa using h t ht
  refine ⟨?_, ?_, ?_, ?_, rfl, rfl⟩
  · show ({ s with
        tracks := s.tracks.map fun t =>
          if t.id = tid then { t with muted := !t.muted } else t
        nodes := match s.tracks.find? (fun t => decide (t.id = tid)) with
          | some t => setNode s.nodes tid
              fun n => { n with playerMute := !t.muted }
          | none => s.nodes } : AppState) = s
    rw [hfind, map_update_eq_self s.tracks tid _ h]
  · show ({ s with
        tracks := s.tracks.map fun t =>
          if t.id = tid then { t with volume := v } else t
        nodes := match s.tracks.find? (fun t => decide (t.id = tid)) with
          | some _ => setNode s.nodes tid fun n => { n with playerVolume := v }
          | none => s.nodes } : AppState) = s
    rw [hfind, map_update_eq_self s.tracks tid _ h]
  · show ({ s with
        tracks := s.tracks.map fun t =>
          if t.id = tid then { t with pan := p } else t
        nodes := match s.tracks.find? (fun t => decide (t.id = tid)) with
          | some _ => setNode s.nodes tid fun n => { n with pannerPan := p }
          | none => s.nodes } : AppState) = s
    rw [hfind, map_update_eq_self s.tracks tid _ h]
  · show ({ s with
        tracks := s.tracks.map fun t =>
          if t.id = tid then { t with pitch := q } else t
        nodes := match s.tracks.find? (fun t => decide (t.id = tid)) with
          | some _ => setNode s.nodes tid
              fun n => { n with pitchShiftPitch := q }
          | none => s.nodes } : AppState) = s
    rw [hfind, map_update_eq_self s.tracks tid _ h]

/-- C7 witness: on `sAB`, every handler invoked with the unassigned
`bogusId` behaves as the amended claim states. -/
theorem unknown_id_silent_noop_witness :
    handleMute sAB bogusId = sAB ∧
    handleVolumeChange sAB bogusId 3 = sAB ∧
    handlePanChange sAB bogusId 3 = sAB ∧
    handlePitchChange sAB bogusId 3 = sAB ∧
    (handleSolo sAB bogusId).nodes = sAB.nodes ∧
    (handleSolo sAB bogusId).log = sAB.log :=
  unknown_id_silent_noop sAB bogusId 3 3 3 (by decide)

/-! Claim C8: idempotence of the waveform-view binding. -/

/-- A bound view survives one binding step. -/
theorem mem_views_ensureView (vs : ViewState) (t : Track) (a : TrackId)
    (h : a ∈ vs.views) : a ∈ (ensureView vs t).views := by
  unfold ensureView
  split
  · exact h
  · exact List.mem_append_left _ h

/-- A bound view survives a whole binding run. -/
theorem mem_views_ensureViews (ts : List Track) :
    ∀ (vs : ViewState) (a : TrackId), a ∈ vs.views →
      a ∈ (ensureViews vs ts).views := by
  induction ts with
  | nil => intro vs a h; exact h
  | cons t ts ih =>
    intro vs a h
    exact ih (ensureView vs t) a (mem_views_ensureView vs t a h)

/-- After one step the handled track is bound. -/
theorem self_mem_ensureView (vs : ViewState) (t : Track) :
    t.id ∈ (ensureView vs t).views := by
  unfold ensureView
  split
  · assumption
  · exact List.mem_append_right _ (List.mem_singleton.mpr rfl)

/-- After one run every listed track is bound. -/
theorem mem_views_ensureViews_of_mem (ts : List Track) :
    ∀ (vs : ViewState) (t : Track), t ∈ ts →
      t.id ∈ (ensureViews vs ts).views := by
  induction ts with
  | nil => intro vs t h; cases h
  | cons u ts ih =>
    intro vs t h
    rcases List.mem_cons.mp h with rfl | h
    · exact mem_views_ensureViews ts (ensureView vs t) t.id
        (self_mem_ensureView vs t)
    · exact ih (ensureView vs u) t h

/-- A run over tracks that are all bound already does nothing. -/
theorem ensureViews_noop (ts : List Track) :
    ∀ vs : ViewState, (∀ t ∈ ts, t.id ∈ vs.views) → ensureViews vs ts = vs := by
  induction ts with
  | nil => intro vs _; rfl
  | cons t ts ih =>
    intro vs h
    have h1 : ensureView vs t = vs := by
      unfold ensureView
      rw [if_pos (h t (List.mem_cons_self t ts))]
    show ensureViews (ensureView vs t) ts = vs
    rw [h1]
    exact ih vs fun u hu => h u (List.mem_cons_of_mem t hu)

/-- A run over tracks none of which is bound yet, with pairwise-distinct
ids, creates exactly one view per track, in registry order. -/
theorem ensureViews_fresh (ts : List Track) :
    ∀ vs : ViewState, (∀ t ∈ ts, t.id ∉ vs.views) →
      ((ts.map fun t => t.id).Nodup) →
      ensureViews vs ts
        = ⟨vs.views ++ ts.map fun t => t.id,
           vs.creations ++ ts.map fun t => t.id⟩ := by
  induction ts with
  | nil => intro vs _ _; simp [ensureViews]
  | cons t ts ih =>
    intro vs h hnd
    have h1 : ensureView vs t
        = ⟨vs.views ++ [t.id], vs.creations ++ [t.id]⟩ := by
      unfold ensureView
      rw [if_neg (h t (List.mem_cons_self t ts))]
    show ensureViews (ensureView vs t) ts = _
    rw [h1, ih ⟨vs.views ++ [t.id], vs.creations ++ [t.id]⟩ ?_ ?_]
    · simp
    · intro u hu
      simp only [List.mem_append, List.mem_singleton]
      rintro (huv | hut)
      · exact h u (List.mem_cons_of_mem t hu) huv
      · rw [List.map_cons, List.nodup_cons] at hnd
        exact hnd.1 (hut ▸ List.mem_map_of_mem (fun x => x.id) hu)
    · rw [List.map_cons, List.nodup_cons] at hnd
      exact hnd.2

/-- C8 confirmed: rebinding is idempotent — a second run of the
wavesurfer effect over the same registry changes nothing (so it creates
and loads nothing) — after any run every track has a view, and a fresh
run over a registry with distinct ids records exactly one
create-and-load event per track. -/
theorem ensureViews_idempotent_unique (ts : List Track) (vs : ViewState) :
    ensureViews (ensureViews vs ts) ts = ensureViews vs ts ∧
    (∀ t ∈ ts, t.id ∈ (ensureViews vs ts).views) ∧
    (vs.views = [] → ((ts.map fun t => t.id).Nodup) →
      (ensureViews vs ts).creations
        = vs.creations ++ ts.map fun t => t.id) := by
  refine ⟨?_, mem_views_ensureViews_of_mem ts vs, ?_⟩
  · exact ensureViews_noop ts (ensureViews vs ts)
      (mem_views_ensureViews_of_mem ts vs)
  · intro hv hnd
    rw [ensureViews_fresh ts vs (fun t _ => by rw [hv]; exact List.not_mem_nil t.id) hnd]

/-- C8 witness: two runs over the two-track registry of `sAB` from the
empty view state: the second run is the identity, both tracks are bound,
and exactly one creation per track is recorded. -/
theorem ensureViews_idempotent_unique_witness :
    ensureViews (ensureViews ⟨[], []⟩ sAB.tracks) sAB.tracks
        = ensureViews ⟨[], []⟩ sAB.tracks ∧
    (∀ t ∈ sAB.tracks, t.id ∈ (ensureViews ⟨[], []⟩ sAB.tracks).views) ∧
    (ensureViews ⟨[], []⟩ sAB.tracks).creations
        = [] ++ sAB.tracks.map fun t => t.id :=
  ⟨(ensureViews_idempotent_unique sAB.tracks ⟨[], []⟩).1,
   (ensureViews_idempotent_unique sAB.tracks ⟨[], []⟩).2.1,
   (ensureViews_idempotent_unique sAB.tracks ⟨[], []⟩).2.2 rfl (by decide)⟩

/-! Claim C9: behavior of the polled transport clock. -/

/-- One step never decreases the clock when wall time is nonnegative. -/
theorem transportStep_seconds_le (st : Bool × Transport) (e : TransportEvent)
    (he : nonnegEvent e = true) :
    (st.2).seconds ≤ ((transportStep st e).2).seconds := by
  obtain ⟨b, tr⟩ := st
  cases e with
  | tick dt =>
    have hdt : (0 : Rat) ≤ dt := by simpa [nonnegEvent] using he
    show tr.seconds ≤ (transportTick tr dt).seconds
    unfold transportTick
    split
    · exact le_add_of_nonneg_right hdt
    · exact le_refl _
  | toggle =>
    show tr.seconds ≤ ((togglePlayPause b tr).2).seconds
    cases b <;> exact le_refl _

/-- C9 confirmed (spec-modelled transport): along any trace of
play/pause toggles and nonnegative wall-time ticks, the polled
`Transport.seconds` value never decreases; a tick while paused leaves
the whole transport (hence the clock) unchanged; and no `togglePlayPause`
call changes the clock value, so resuming from Paused continues from the
frozen value instead of resetting to zero. -/
theorem transport_clock_monotone (st : Bool × Transport)
    (evs : List TransportEvent) (h : ∀ e ∈ evs, nonnegEvent e = true) :
    (st.2).seconds ≤ ((transportRun st evs).2).seconds ∧
    (∀ (tr : Transport) (dt : Rat), tr.playing = false →
      transportTick tr dt = tr) ∧
    (∀ (b : Bool) (tr : Transport),
      ((togglePlayPause b tr).2).seconds = tr.seconds) := by
  refine ⟨?_, ?_, ?_⟩
  · induction evs generalizing st with
    | nil => exact le_refl _
    | cons e evs ih =>
      have h1 : (st.2).seconds ≤ ((transportStep st e).2).seconds :=
        transportStep_seconds_le st e (h e (List.mem_cons_self e evs))
      have h2 := ih (transportStep st e)
        fun e' he' => h e' (List.mem_cons_of_mem e he')
      exact le_trans h1 h2
  · intro tr dt hp
    unfold transportTick
    rw [if_neg]
    rw [hp]
    exact Bool.false_ne_true
  · intro b tr
    cases b <;> rfl

/-- C9 witness: starting paused at 5 seconds, the trace
play, +1 s, pause, +2 s never drops below 5 (it ends at 6: the tick
while paused is frozen), a tick on a paused transport is the identity,
and pressing play on a paused transport keeps the clock value. -/
theorem transport_clock_monotone_witness :
    (((false, ⟨false, 5⟩) : Bool × Transport).2).seconds ≤
      ((transportRun ((false, ⟨false, 5⟩) : Bool × Transport)
        [.toggle, .tick 1, .toggle, .tick 2]).2).seconds ∧
    transportTick ⟨false, 7⟩ 3 = ⟨false, 7⟩ ∧
    ((togglePlayPause false ⟨false, 7⟩).2).seconds = 7 :=
  ⟨(transport_clock_monotone ((false, ⟨false, 5⟩) : Bool × Transport)
      [.toggle, .tick 1, .toggle, .tick 2] (by decide)).1,
   (transport_clock_monotone ((false, ⟨false, 5⟩) : Bool × Transport)
      [.toggle, .tick 1, .toggle, .tick 2] (by decide)).2.1 ⟨false, 7⟩ 3 rfl,
   (transport_clock_monotone ((false, ⟨false, 5⟩) : Bool × Transport)
      [.toggle, .tick 1, .toggle, .tick 2] (by decide)).2.2 false ⟨false, 7⟩⟩

/-! Claim C10: frame property of the volume, pan and pitch setters. -/

/-- C10 confirmed: a setter rewrites at most the addressed field of the
entry at each position — every other field of the entry at position `i`,
and the list length (hence the order of untouched entries), are
unchanged; entries whose id differs from the target are fully
unchanged. -/
theorem setters_frame_property (s : AppState) (tid : TrackId)
    (v p q : Rat) (i : Nat) (t : Track) (h : s.tracks.get? i = some t) :
    ((handleVolumeChange s tid v).tracks.length = s.tracks.length ∧
     (handlePanChange s tid p).tracks.length = s.tracks.length ∧
     (handlePitchChange s tid q).tracks.length = s.tracks.length) ∧
    (∃ t', (handleVolumeChange s tid v).tracks.get? i = some t' ∧
      t'.id = t.id ∧ t'.name = t.name ∧ t'.muted = t.muted ∧
      t'.solo = t.solo ∧ t'.pan = t.pan ∧ t'.pitch = t.pitch ∧
      (¬ t.id = tid → t'.volume = t.volume) ∧
      (t.id = tid → t'.volume = v)) ∧
    (∃ t', (handlePanChange s tid p).tracks.get? i = some t' ∧
      t'.id = t.id ∧ t'.name = t.name ∧ t'.muted = t.muted ∧
      t'.solo = t.solo ∧ t'.volume = t.volume ∧ t'.pitch = t.pitch ∧
      (¬ t.id = tid → t'.pan = t.pan) ∧
      (t.id = tid → t'.pan = p)) ∧
    (∃ t', (handlePitchChange s tid q).tracks.get? i = some t' ∧
      t'.id = t.id ∧ t'.name = t.name ∧ t'.muted = t.muted ∧
      t'.solo = t.solo ∧ t'.volume = t.volume ∧ t'.pan = t.pan ∧
      (¬ t.id = tid → t'.pitch = t.pitch) ∧
      (t.id = tid → t'.pitch = q)) := by
  have hv : (handleVolumeChange s tid v).tracks.get? i
      = some (if t.id = tid then { t with volume := v } else t) := by
    show (s.tracks.map fun u =>
      if u.id = tid then { u with volume := v } else u).get? i = _
    rw [List.get?_map, h]
    rfl
  have hp : (handlePanChange s tid p).tracks.get? i
      = some (if t.id = tid then { t with pan := p } else t) := by
    show (s.tracks.map fun u =>
      if u.id = tid then { u with pan := p } else u).get? i = _
    rw [List.get?_map, h]
    rfl
  have hq : (handlePitchChange s tid q).tracks.get? i
      = some (if t.id = tid then { t with pitch := q } else t) := by
    show (s.tracks.map fun u =>
      if u.id = tid then { u with pitch := q } else u).get? i = _
    rw [List.get?_map, h]
    rfl
  refine ⟨⟨List.length_map _ _, List.length_map _ _, List.length_map _ _⟩,
    ?_, ?_, ?_⟩
  · by_cases h' : t.id = tid
    · exact ⟨{ t with volume := v }, by rw [hv, if_pos h'], rfl, rfl, rfl,
        rfl, rfl, rfl, fun hc => absurd h' hc, fun _ => rfl⟩
    · exact ⟨t, by rw [hv, if_neg h'], rfl, rfl, rfl, rfl, rfl, rfl,
        fun _ => rfl, fun hc => absurd hc h'⟩
  · by_cases h' : t.id = tid
    · exact ⟨{ t with pan := p }, by rw [hp, if_pos h'], rfl, rfl, rfl,
        rfl, rfl, rfl, fun hc => absurd h' hc, fun _ => rfl⟩
    · exact ⟨t, by rw [hp, if_neg h'], rfl, rfl, rfl, rfl, rfl, rfl,
        fun _ => rfl, fun hc => absurd hc h'⟩
  · by_cases h' : t.id = tid
    · exact ⟨{ t with pitch := q }, by rw [hq, if_pos h'], rfl, rfl, rfl,
        rfl, rfl, rfl, fun hc => absurd h' hc, fun _ => rfl⟩
    · exact ⟨t, by rw [hq, if_neg h'], rfl, rfl, rfl, rfl, rfl, rfl,
        fun _ => rfl, fun hc => absurd hc h'⟩

/-- C10 witness: the frame property of the three setters, targeting
track `a` of `sAB`, observed at position 1 (track `b`, unchanged). -/
theorem setters_frame_property_witness :
    ((handleVolumeChange sAB idA 3).tracks.length = sAB.tracks.length ∧
     (handlePanChange sAB idA 3).tracks.length = sAB.tracks.length ∧
     (handlePitchChange sAB idA 3).tracks.length = sAB.tracks.length) ∧
    (∃ t', (handleVolumeChange sAB idA 3).tracks.get? 1 = some t' ∧
      t'.id = (newTrack 1 1 ⟨"b", true⟩).id ∧
      t'.name = (newTrack 1 1 ⟨"b", true⟩).name ∧
      t'.muted = (newTrack 1 1 ⟨"b", true⟩).muted ∧
      t'.solo = (newTrack 1 1 ⟨"b", true⟩).solo ∧
      t'.pan = (newTrack 1 1 ⟨"b", true⟩).pan ∧
      t'.pitch = (newTrack 1 1 ⟨"b", true⟩).pitch ∧
      (¬ (newTrack 1 1 ⟨"b", true⟩).id = idA →
        t'.volume = (newTrack 1 1 ⟨"b", true⟩).volume) ∧
      ((newTrack 1 1 ⟨"b", true⟩).id = idA → t'.volume = 3)) ∧
    (∃ t', (handlePanChange sAB idA 3).tracks.get? 1 = some t' ∧
      t'.id = (newTrack 1 1 ⟨"b", true⟩).id ∧
      t'.name = (newTrack 1 1 ⟨"b", true⟩).name ∧
      t'.muted = (newTrack 1 1 ⟨"b", true⟩).muted ∧
      t'.solo = (newTrack 1 1 ⟨"b", true⟩).solo ∧
      t'.volume = (newTrack 1 1 ⟨"b", true⟩).volume ∧
      t'.pitch = (newTrack 1 1 ⟨"b", true⟩).pitch ∧
      (¬ (newTrack 1 1 ⟨"b", true⟩).id = idA →
        t'.pan = (newTrack 1 1 ⟨"b", true⟩).pan) ∧
      ((newTrack 1 1 ⟨"b", true⟩).id = idA → t'.pan = 3)) ∧
    (∃ t', (handlePitchChange sAB idA 3).tracks.get? 1 = some t' ∧
      t'.id = (newTrack 1 1 ⟨"b", true⟩).id ∧
      t'.name = (newTrack 1 1 ⟨"b", true⟩).name ∧
      t'.muted = (newTrack 1 1 ⟨"b", true⟩).muted ∧
      t'.solo = (newTrack 1 1 ⟨"b", true⟩).solo ∧
      t'.volume = (newTrack 1 1 ⟨"b", true⟩).volume ∧
      t'.pan = (newTrack 1 1 ⟨"b", true⟩).pan ∧
      (¬ (newTrack 1 1 ⟨"b", true⟩).id = idA →
        t'.pitch = (newTrack 1 1 ⟨"b", true⟩).pitch) ∧
      ((newTrack 1 1 ⟨"b", true⟩).id = idA → t'.pitch = 3)) :=
  setters_frame_property sAB idA 3 3 3 1 (newTrack 1 1 ⟨"b", true⟩) (by decide)

end AudioApp
